import Mathlib

/-!
# Verification of the `ratelimit` package (gaoyong06/go-pkg)

Shallow embedding of the Redis-backed sliding-window rate limiter:

* `Config`, `RateLimitError`, `Limiter.Allow` from `ratelimit/limiter.go` and
  `ratelimit/redis_limiter.go`;
* the Lua script `luaScript` (function `check_window` and the window loop) that
  performs the atomic check-and-record, modelled as a pure state transformer on
  an explicit `Store` (the Redis keyspace restricted to the sorted sets and
  TTLs this script touches);
* the Go-side result parsing of `RedisLimiter.Allow`, including its unchecked
  type assertions (modelled by an explicit `panicked` outcome).

Modelling choices, each taken from the source:

* `getNowUnix` is an injected clock; it becomes an explicit `now : Int`
  parameter (the tests replace the clock the same way).
* `math.random(0, 999999)` becomes an explicit stream `rands : List Nat` of
  draws; each recorded marker consumes one draw and uses `draw % 1000000`,
  which is exactly the range the Lua call produces.  Lua numbers below 2^53
  are exact, so marker values are modelled as exact integers.
* A Redis sorted set is a set of members; `ZADD key m m` with an existing
  member `m` does not change the set.  Members are kept as a `List Int`
  without duplicates by construction of `zadd`.
* `ZREMRANGEBYSCORE zk '0' c` removes exactly the members `m` with
  `0 ≤ m ∧ m ≤ c` (an empty range when `c < 0`).
* Each `EVAL` of the script is atomic on the Redis side, so any concurrent
  schedule of `Allow` calls is some sequential interleaving of whole script
  executions; sequences of calls are modelled by `allowSeq`/`applyCalls`.
-/

set_option maxHeartbeats 1000000

namespace GoPkg
namespace Ratelimit

/-- A value as the Go client receives it back from a Redis script
(`interface{}` in `RedisLimiter.Allow`): an integer, a bulk string, or an
array of such values. -/
inductive RVal where
  | int (n : Int)
  | str (s : String)
  | arr (xs : List RVal)
deriving Repr

/-- Go struct `Config` from `ratelimit/limiter.go`.  The Go fields are `int32`; they are
modelled as unbounded integers, a superset of the `int32` range (negative
values are representable, which claim C10 is about). -/
structure Config where
  PerSecond : Int
  PerMinute : Int
  PerHour   : Int
  PerDay    : Int
deriving DecidableEq, Repr

/-- Go struct `RateLimitError` from `ratelimit/redis_limiter.go`. -/
structure RateLimitError where
  Key           : String
  WindowName    : String
  WindowSeconds : Int
  Current       : Int
  Limit         : Int
deriving DecidableEq, Repr

/-- Outcome of one `RedisLimiter.Allow` call: `nil`, a `*RateLimitError`, a
generic `fmt.Errorf` evaluation error, or a Go runtime panic (from an
unchecked type assertion). -/
inductive AllowResult where
  | ok
  | rateLimited (e : RateLimitError)
  | evalError (msg : String)
  | panicked
deriving DecidableEq, Repr

/-- The Redis keyspace as this script sees it: for every Redis key, the
members of its sorted set (empty list = key absent) and its TTL in seconds
(`none` = no expiration set / key absent). -/
structure Store where
  zset : String → List Int
  ttl  : String → Option Int

/-- The empty Redis keyspace. -/
def emptyStore : Store := ⟨fun _ => [], fun _ => none⟩

/-- Pointwise update of a total map with string keys. -/
def updateFn {α : Type} (f : String → α) (k : String) (v : α) : String → α :=
  fun x => if x = k then v else f x

/-- The Redis key `"rate_limit:" .. KEYS[1] .. ":" .. key_suffix` from the Lua script. -/
def zkey (key suffix : String) : String :=
  "rate_limit:" ++ key ++ ":" ++ suffix

/-- Whether `ZREMRANGEBYSCORE zk '0' cutoff` removes member `m`. -/
def expired (cutoff m : Int) : Bool :=
  decide (0 ≤ m) && decide (m ≤ cutoff)

/-- Effect of `ZREMRANGEBYSCORE zk '0' cutoff` on the member list. -/
def purgeList (l : List Int) (cutoff : Int) : List Int :=
  l.filter (fun m => !(expired cutoff m))

/-- Effect of `ZADD zk m m` on the member list (score = member; adding an
existing member leaves the set unchanged). -/
def zadd (l : List Int) (member : Int) : List Int :=
  if member ∈ l then l else l ++ [member]

/-- Result of the Lua function `check_window`: its `{flag, count}` return
value plus the store and random stream after its Redis calls. -/
structure WinRes where
  passed : Bool
  count  : Int
  store  : Store
  rands  : List Nat

/-- The Lua function `check_window(key_suffix, limit, window_seconds,
now_unix)`:

```
if limit <= 0 then return {true, 0} end
window_start = now_unix - window_seconds
zset_key = "rate_limit:" .. KEYS[1] .. ":" .. key_suffix
ZREMRANGEBYSCORE(zset_key, '0', tostring(window_start * 1000000))
count = ZCARD(zset_key)
if count >= limit then return {false, count} end
member = tostring(now_unix * 1000000 + math.random(0, 999999))
ZADD(zset_key, member, member); EXPIRE(zset_key, window_seconds + 1)
return {true, count + 1}
```
-/
def check_window (key suffix : String) (limit window now : Int)
    (st : Store) (rands : List Nat) : WinRes :=
  if limit ≤ 0 then ⟨true, 0, st, rands⟩
  else
    let zk := zkey key suffix
    let cutoff := (now - window) * 1000000
    let purged := purgeList (st.zset zk) cutoff
    let count : Int := purged.length
    if limit ≤ count then
      ⟨false, count, { st with zset := updateFn st.zset zk purged }, rands⟩
    else
      let r : Int := ((rands.headD 0) % 1000000 : Nat)
      let member := now * 1000000 + r
      ⟨true, count + 1,
        ⟨updateFn st.zset zk (zadd purged member),
         updateFn st.ttl zk (some (window + 1))⟩,
        rands.tail⟩

/-- The script's success return value `{1, "", 0, 0, 0}`. -/
def successRet : List RVal :=
  [.int 1, .str "", .int 0, .int 0, .int 0]

/-- The script's rejection return value
`{0, suffix, window, count, limit}`. -/
def rejectRet (suffix : String) (window count limit : Int) : List RVal :=
  [.int 0, .str suffix, .int window, .int count, .int limit]

/-- The `for i, window_config in ipairs(windows)` loop of the Lua script:
check each `(suffix, limit, window_seconds)` triple in order, stop at the
first failed window. -/
def checkWindows (key : String) (now : Int) :
    List (String × Int × Int) → Store → List Nat → List RVal × Store × List Nat
  | [], st, rands => (successRet, st, rands)
  | (suffix, limit, window) :: rest, st, rands =>
    let res := check_window key suffix limit window now st rands
    if res.passed then checkWindows key now rest res.store res.rands
    else (rejectRet suffix window res.count limit, res.store, res.rands)

/-- The `windows` table of the Lua script, in its fixed order. -/
def windowList (cfg : Config) : List (String × Int × Int) :=
  [("per_second", cfg.PerSecond, 1),
   ("per_minute", cfg.PerMinute, 60),
   ("per_hour",   cfg.PerHour,   3600),
   ("per_day",    cfg.PerDay,    86400)]

/-- One atomic execution of `luaScript` with `KEYS = {key}` and
`ARGV = {now, PerSecond, PerMinute, PerHour, PerDay}`. -/
def runScript (key : String) (now : Int) (cfg : Config)
    (st : Store) (rands : List Nat) : List RVal × Store × List Nat :=
  checkWindows key now (windowList cfg) st rands

/-- The result parsing of `RedisLimiter.Allow`:

* `result.([]interface{})` failing, or `len(res) < 5`, gives
  `invalid lua script result`;
* `res[0].(int64)` failing (comma-ok form) gives
  `invalid success flag in lua result`;
* on `success == 0`, `res[1].(string)`, `res[2].(int64)`, `res[3].(int64)`,
  `res[4].(int64)` are UNCHECKED type assertions: a wrong element type is a
  runtime panic, modelled by `panicked`. -/
def parseScriptResult (key : String) (result : RVal) : AllowResult :=
  match result with
  | .arr (r0 :: r1 :: r2 :: r3 :: r4 :: _) =>
    match r0 with
    | .int success =>
      if success == 0 then
        match r1, r2, r3, r4 with
        | .str windowName, .int windowSeconds, .int current, .int limit =>
          .rateLimited ⟨key, windowName, windowSeconds, current, limit⟩
        | _, _, _, _ => .panicked
      else .ok
    | _ => .evalError "invalid success flag in lua result"
  | .arr _ => .evalError "invalid lua script result"
  | _ => .evalError "invalid lua script result"

/-- Model of `RedisLimiter.Allow(ctx, key, config)`: `nil` config short-circuits to
`nil`; otherwise run the script at the injected clock's `now` and parse its
result.  Returns the outcome together with the store and random stream after
the call. -/
def Allow (key : String) (config : Option Config) (now : Int)
    (st : Store) (rands : List Nat) : AllowResult × Store × List Nat :=
  match config with
  | none => (.ok, st, rands)
  | some cfg =>
    let res := runScript key now cfg st rands
    (parseScriptResult key (.arr res.1), res.2.1, res.2.2)

/-- Run of `n` sequential `Allow` calls with the same key, config and clock value
(the serialization of `n` concurrent callers hitting the same instant, since
each script execution is atomic).  Returns the list of outcomes in order. -/
def allowSeq (key : String) (config : Option Config) (now : Int) :
    Nat → Store → List Nat → List AllowResult × Store × List Nat
  | 0, st, rands => ([], st, rands)
  | n + 1, st, rands =>
    let one := Allow key config now st rands
    let rest := allowSeq key config now n one.2.1 one.2.2
    (one.1 :: rest.1, rest.2.1, rest.2.2)

/-- True exactly for the `nil` (accepted) outcome. -/
def isAllowed : AllowResult → Bool
  | .ok => true
  | _ => false

/-- True exactly for the `*RateLimitError` (rejected) outcome. -/
def isRejected : AllowResult → Bool
  | .rateLimited _ => true
  | _ => false

/-- Number of accepted calls in a list of outcomes. -/
def okCount (l : List AllowResult) : Nat := l.countP isAllowed

/-- Number of rate-limited calls in a list of outcomes. -/
def rejCount (l : List AllowResult) : Nat := l.countP isRejected

/-- One `Allow` call as seen from the outside: its config, clock value and
random draws. -/
structure CallSpec where
  config : Option Config
  now    : Int
  rands  : List Nat

/-- Apply a sequence of `Allow` calls on one key to the store. -/
def applyCalls (key : String) : List CallSpec → Store → Store
  | [], st => st
  | c :: cs, st => applyCalls key cs (Allow key c.config c.now st c.rands).2.1

/-- The four window names, in evaluation order. -/
def windowNames : List String :=
  ["per_second", "per_minute", "per_hour", "per_day"]

/-- The four `(name, window_seconds)` pairs, in evaluation order. -/
def windowSpecs : List (String × Int) :=
  [("per_second", 1), ("per_minute", 60), ("per_hour", 3600), ("per_day", 86400)]

/-- The config that sets one named window to `L` and every other window
to `0`. -/
def singleCfg (name : String) (L : Int) : Config :=
  ⟨if name = "per_second" then L else 0,
   if name = "per_minute" then L else 0,
   if name = "per_hour" then L else 0,
   if name = "per_day" then L else 0⟩

/-- The count a window sees at time `now`: surviving members after the
purge. -/
def windowCount (st : Store) (key suffix : String) (wsecs now : Int) : Int :=
  (purgeList (st.zset (zkey key suffix)) ((now - wsecs) * 1000000)).length

/-- Copy of `cfg` with every negative limit replaced by `0` (the other limits kept). -/
def zeroNeg (cfg : Config) : Config :=
  ⟨if cfg.PerSecond < 0 then 0 else cfg.PerSecond,
   if cfg.PerMinute < 0 then 0 else cfg.PerMinute,
   if cfg.PerHour < 0 then 0 else cfg.PerHour,
   if cfg.PerDay < 0 then 0 else cfg.PerDay⟩
/-- Markers recorded at clock value `T` lie in `[T·10⁶, (T+1)·10⁶)`. -/
def InSecond (T m : Int) : Prop :=
  T * 1000000 ≤ m ∧ m < (T + 1) * 1000000
/-- The member recorded at clock value `T` for random draw `r`. -/
def memberAt (T : Int) (r : Nat) : Int :=
  T * 1000000 + ((r % 1000000 : Nat) : Int)
/-- The members recorded at clock value `T` for a list of random draws. -/
def membersOf (T : Int) (rs : List Nat) : List Int :=
  rs.map (memberAt T)
/-- The run of the whole script when only the window `name` (of duration `w`)
has a positive limit: it reduces to that single window's check. -/
def singleRun (key name : String) (L w now : Int) (st : Store)
    (rands : List Nat) : AllowResult × Store × List Nat :=
  let res := check_window key name L w now st rands
  if res.passed then (.ok, res.store, res.rands)
  else (.rateLimited ⟨key, name, w, res.count, L⟩, res.store, res.rands)
/-- The window names evaluated strictly after a given window in the script's
fixed order. -/
def laterNames : String → List String
  | "per_second" => ["per_minute", "per_hour", "per_day"]
  | "per_minute" => ["per_hour", "per_day"]
  | "per_hour" => ["per_day"]
  | _ => []
/-- A concrete store violating both `per_second` and `per_day` for key `"u"`
at time 1000. -/
def c5Store : Store :=
  ⟨updateFn (updateFn (fun _ => []) (zkey "u" "per_second") [1000000005])
    (zkey "u" "per_day") [5],
   fun _ => none⟩
/-- A concrete store with one fresh `per_minute` marker for key `"k"`. -/
def c1Store : Store :=
  ⟨updateFn (fun _ => []) (zkey "k" "per_minute") [1000000001], fun _ => none⟩


/-! ## Basic lemmas about one window check -/

lemma check_window_nonpos (key suffix : String) {limit : Int} (window now : Int)
    (st : Store) (rands : List Nat) (h : limit ≤ 0) :
    check_window key suffix limit window now st rands = ⟨true, 0, st, rands⟩ := by
  simp [check_window, h]

lemma check_window_clamp (key suffix : String) (limit window now : Int)
    (st : Store) (rands : List Nat) :
    check_window key suffix limit window now st rands =
      check_window key suffix (if limit < 0 then 0 else limit) window now st rands := by
  by_cases h : limit < 0
  · rw [if_pos h, check_window_nonpos _ _ _ _ _ _ h.le,
      check_window_nonpos _ _ _ _ _ _ le_rfl]
  · rw [if_neg h]

lemma checkWindows_clamp (key : String) (now : Int) :
    ∀ (ws : List (String × Int × Int)) (st : Store) (rands : List Nat),
    checkWindows key now ws st rands =
      checkWindows key now
        (ws.map (fun t => (t.1, if t.2.1 < 0 then 0 else t.2.1, t.2.2))) st rands
  | [], _, _ => rfl
  | (s, limit, w) :: rest, st, rands => by
    simp only [checkWindows, List.map]
    rw [← check_window_clamp]
    by_cases h : (check_window key s limit w now st rands).passed
    · simp only [h, if_true]
      exact checkWindows_clamp key now rest _ _
    · have hpos : ¬ limit < 0 := by
        intro hneg
        rw [check_window_nonpos _ _ _ _ _ _ hneg.le] at h
        exact h rfl
      simp [h, hpos]

/-! ## C10 -/

/-- C10: a window whose configured limit is negative behaves exactly like a
limit of 0 (unconstrained): `Allow` with any config is indistinguishable —
same outcome, same store, same random stream — from `Allow` with that config's
negative limits replaced by 0.  In particular a negative limit is fail-open,
never "deny everything" and never an error. -/
theorem c10_negative_limit_unconstrained (key : String) (now : Int)
    (cfg : Config) (st : Store) (rands : List Nat) :
    Allow key (some cfg) now st rands = Allow key (some (zeroNeg cfg)) now st rands := by
  show (let res := runScript key now cfg st rands
        (parseScriptResult key (.arr res.1), res.2.1, res.2.2)) = _
  unfold runScript
  rw [checkWindows_clamp]
  rfl

/-! ## C6 -/

lemma allow_zero_config (key : String) (now : Int) (st : Store) (rands : List Nat) :
    Allow key (some ⟨0, 0, 0, 0⟩) now st rands = (.ok, st, rands) := rfl

/-- C6: with a `nil` config, or a config whose four limits are all 0, every
call in an arbitrarily long sequence returns `nil` (never an error), and the
store — every sorted set and every expiration — is exactly unchanged. -/
theorem c6_nil_or_zero_config_no_writes (key : String) (now : Int)
    (st : Store) (rands : List Nat) (n : Nat) :
    allowSeq key none now n st rands = (List.replicate n .ok, st, rands) ∧
    allowSeq key (some ⟨0, 0, 0, 0⟩) now n st rands = (List.replicate n .ok, st, rands) := by
  induction n generalizing st rands with
  | zero => exact ⟨rfl, rfl⟩
  | succ n ih =>
    refine ⟨?_, ?_⟩
    · simp only [allowSeq, Allow, (ih st rands).1, List.replicate_succ]
    · simp only [allowSeq, allow_zero_config, (ih st rands).2, List.replicate_succ]

/-! ## C8 (code bug: unchecked type assertions in the rejection branch) -/

/-- C8 (refuting the claim): parsing of the rejection tuple is NOT total.
A malformed script result whose success flag is 0 but whose window-name slot
holds an integer instead of a string hits the unchecked type assertion
`res[1].(string)` in `RedisLimiter.Allow` and panics instead of returning an
error.  (Wrong shape and a wrong-typed success flag are, by contrast, handled
with returned errors.) -/
theorem c8_malformed_rejection_tuple_panics :
    parseScriptResult "k" (.arr [.int 0, .int 7, .int 1, .int 3, .int 3]) =
      .panicked ∧
    parseScriptResult "k" (.int 3) = .evalError "invalid lua script result" ∧
    parseScriptResult "k" (.arr [.int 0, .str "per_second"]) =
      .evalError "invalid lua script result" ∧
    parseScriptResult "k" (.arr [.str "x", .str "per_second", .int 1, .int 3, .int 3]) =
      .evalError "invalid success flag in lua result" := by
  exact ⟨rfl, rfl, rfl, rfl⟩

/-! ## C7 (code bug: random disambiguators can collide) -/

/-- C7 (refuting the claim): marker identities are NOT always distinct.  Two
accepted requests in the same second whose `math.random(0, 999999)` draws are
both 7 produce the same member, the second `ZADD` silently coincides with the
first marker, and the stored cardinality is 1 although 2 accepted recordings
were made (and none purged). -/
theorem c7_duplicate_disambiguator_overwrites :
    (allowSeq "k" (some ⟨3, 0, 0, 0⟩) 1000 2 emptyStore [7, 7]).1 = [.ok, .ok] ∧
    ((allowSeq "k" (some ⟨3, 0, 0, 0⟩) 1000 2 emptyStore [7, 7]).2.1.zset
        (zkey "k" "per_second")).length = 1 := by
  exact ⟨rfl, rfl⟩

/-! ## C3 counterexample -/

/-- C3 (refuting the claim as stated): with `per_second = 1`, one accepted
call at T = 1000 (random draw 1) and a rejection at T = 1000, the next call at
T + 1 = 1001 — exactly the window duration later — is still REJECTED: the
marker `1000·10⁶ + 1` is strictly above the purge cutoff `(1001 − 1)·10⁶`, so
it has not aged out. -/
theorem c3_counterexample :
    (allowSeq "k" (some ⟨1, 0, 0, 0⟩) 1000 2 emptyStore [1]).1 =
      [.ok, .rateLimited ⟨"k", "per_second", 1, 1, 1⟩] ∧
    (Allow "k" (some ⟨1, 0, 0, 0⟩) 1001
        (allowSeq "k" (some ⟨1, 0, 0, 0⟩) 1000 2 emptyStore [1]).2.1 []).1 =
      .rateLimited ⟨"k", "per_second", 1, 1, 1⟩ := by
  exact ⟨rfl, rfl⟩

/-! ## C1 counterexample -/

/-- C1 (refuting the claim as stated): with `PerSecond = 5, PerMinute = 1`,
the first call at T = 1000 is accepted and leaves one marker in the
`per_second` set.  The second call at T = 1000 is REJECTED by `per_minute`,
yet the persisted `per_second` state has changed: it now holds a second
marker, because `check_window` records into each window that passes before
the violated one and the script does not roll back.  The denied request
consumed `per_second` quota. -/
theorem c1_counterexample :
    (allowSeq "k" (some ⟨5, 1, 0, 0⟩) 1000 2 emptyStore [1, 2, 3, 4]).1 =
      [.ok, .rateLimited ⟨"k", "per_minute", 60, 1, 1⟩] ∧
    (allowSeq "k" (some ⟨5, 1, 0, 0⟩) 1000 1 emptyStore [1, 2, 3, 4]).2.1.zset
        (zkey "k" "per_second") = [1000000001] ∧
    (allowSeq "k" (some ⟨5, 1, 0, 0⟩) 1000 2 emptyStore [1, 2, 3, 4]).2.1.zset
        (zkey "k" "per_second") = [1000000001, 1000000003] := by
  exact ⟨rfl, rfl, rfl⟩

/-! ## C5 -/

lemma check_window_reject_eq (key suffix : String) (limit window now : Int)
    (st : Store) (rands : List Nat)
    (hpos : 0 < limit) (hcnt : limit ≤ windowCount st key suffix window now) :
    check_window key suffix limit window now st rands =
      ⟨false, windowCount st key suffix window now,
       ⟨updateFn st.zset (zkey key suffix)
          (purgeList (st.zset (zkey key suffix)) ((now - window) * 1000000)),
        st.ttl⟩,
       rands⟩ := by
  have h1 : ¬ limit ≤ 0 := not_le.mpr hpos
  have h2 : limit ≤
      ((purgeList (st.zset (zkey key suffix)) ((now - window) * 1000000)).length : Int) :=
    hcnt
  simp [check_window, h1, h2, windowCount]

/-- C5: windows are evaluated in the fixed order `per_second`, `per_minute`,
`per_hour`, `per_day` and evaluation stops at the first violated window: for
every key, store and config, a request that would violate both the
`per_second` and the `per_day` limits is reported as a `per_second` violation
(first-match-wins), with the `per_second` duration, count and limit. -/
theorem c5_first_match_wins (key : String) (now : Int) (st : Store)
    (rands : List Nat) (cfg : Config)
    (hps : 0 < cfg.PerSecond) (hpd : 0 < cfg.PerDay)
    (hs : cfg.PerSecond ≤ windowCount st key "per_second" 1 now)
    (hd : cfg.PerDay ≤ windowCount st key "per_day" 86400 now) :
    (Allow key (some cfg) now st rands).1 =
      .rateLimited ⟨key, "per_second", 1,
        windowCount st key "per_second" 1 now, cfg.PerSecond⟩ := by
  have hr := check_window_reject_eq key "per_second" cfg.PerSecond 1 now st rands hps hs
  simp [Allow, runScript, windowList, checkWindows, hr, parseScriptResult, rejectRet]


/-- Witness for C5 at a concrete input. -/
theorem c5_first_match_wins_witness :
    (Allow "u" (some ⟨1, 0, 0, 1⟩) 1000 c5Store []).1 =
      .rateLimited ⟨"u", "per_second", 1,
        windowCount c5Store "u" "per_second" 1 1000, 1⟩ :=
  c5_first_match_wins "u" 1000 c5Store [] ⟨1, 0, 0, 1⟩
    (by decide) (by decide) (by decide) (by decide)

/-! ## Disjointness of the Redis keys used for different limiter keys -/

lemma updateFn_ne {α : Type} (f : String → α) (k : String) (v : α) {x : String}
    (h : x ≠ k) : updateFn f k v x = f x := by
  simp [updateFn, h]

lemma updateFn_same {α : Type} (f : String → α) (k : String) (v : α) :
    updateFn f k v k = v := by
  simp [updateFn]

lemma zkey_data (k s : String) :
    (zkey k s).data = ("rate_limit:" ++ k ++ ":").data ++ s.data := rfl

lemma zkey_ne_of_last_ne {k1 k2 s1 s2 : String} (hs1 : s1.data ≠ [])
    (hs2 : s2.data ≠ []) (hlast : s1.data.getLast? ≠ s2.data.getLast?) :
    zkey k1 s1 ≠ zkey k2 s2 := by
  intro h
  apply hlast
  have hd : (zkey k1 s1).data = (zkey k2 s2).data := congrArg String.data h
  rw [zkey_data, zkey_data] at hd
  rw [← List.getLast?_append_of_ne_nil ("rate_limit:" ++ k1 ++ ":").data hs1,
    ← List.getLast?_append_of_ne_nil ("rate_limit:" ++ k2 ++ ":").data hs2, hd]

lemma zkey_cancel {k1 k2 s : String} (h : zkey k1 s = zkey k2 s) : k1 = k2 := by
  have hd : ((("rate_limit:".data ++ k1.data) ++ ":".data) ++ s.data) =
      ((("rate_limit:".data ++ k2.data) ++ ":".data) ++ s.data) :=
    congrArg String.data h
  have e2 := List.append_cancel_right hd
  have e3 := List.append_cancel_right e2
  have e4 := List.append_cancel_left e3
  cases k1; cases k2; exact congrArg String.mk e4

/-- The Redis key `rate_limit:<key>:<window>` determines the limiter key and
the window name: storage for distinct `(key, window)` pairs is disjoint. -/
lemma zkey_inj {k1 k2 s1 s2 : String} (h1 : s1 ∈ windowNames)
    (h2 : s2 ∈ windowNames) (h : zkey k1 s1 = zkey k2 s2) :
    k1 = k2 ∧ s1 = s2 := by
  fin_cases h1 <;> fin_cases h2 <;>
    first
      | exact ⟨zkey_cancel h, rfl⟩
      | exact absurd h (zkey_ne_of_last_ne (by decide) (by decide) (by decide))

/-! ## Frame lemmas: a call for one key only writes under that key's
Redis keys -/

lemma check_window_zset_frame (key suffix : String) (limit window now : Int)
    (st : Store) (rands : List Nat) {zk' : String} (h : zk' ≠ zkey key suffix) :
    (check_window key suffix limit window now st rands).store.zset zk' =
      st.zset zk' := by
  simp only [check_window]
  split_ifs <;> simp [updateFn_ne _ _ _ h]

lemma checkWindows_zset_frame (key : String) (now : Int) :
    ∀ (ws : List (String × Int × Int)) (st : Store) (rands : List Nat)
      {zk' : String}, (∀ t ∈ ws, zk' ≠ zkey key t.1) →
    (checkWindows key now ws st rands).2.1.zset zk' = st.zset zk'
  | [], _, _, _, _ => rfl
  | (s, limit, w) :: rest, st, rands, zk', h => by
    have hfr := check_window_zset_frame key s limit w now st rands
      (h (s, limit, w) (by simp))
    by_cases hp : (check_window key s limit w now st rands).passed
    · simp only [checkWindows, hp, if_true]
      rw [checkWindows_zset_frame key now rest _ _
        (fun t ht => h t (List.mem_cons_of_mem _ ht))]
      exact hfr
    · simp only [checkWindows, hp, if_false]
      exact hfr

lemma allow_zset_frame (key : String) (config : Option Config) (now : Int)
    (st : Store) (rands : List Nat) {zk' : String}
    (h : ∀ s ∈ windowNames, zk' ≠ zkey key s) :
    (Allow key config now st rands).2.1.zset zk' = st.zset zk' := by
  cases config with
  | none => rfl
  | some cfg =>
    simp only [Allow, runScript]
    apply checkWindows_zset_frame
    intro t ht
    apply h
    fin_cases ht <;> simp [windowNames]

lemma applyCalls_zset_frame (key : String) :
    ∀ (cs : List CallSpec) (st : Store) {zk' : String},
      (∀ s ∈ windowNames, zk' ≠ zkey key s) →
    (applyCalls key cs st).zset zk' = st.zset zk'
  | [], _, _, _ => rfl
  | c :: cs, st, zk', h => by
    rw [applyCalls, applyCalls_zset_frame key cs _ h, allow_zset_frame key _ _ _ _ h]

/-! ## Congruence: the outcome for a key depends only on that key's own
stored state -/

lemma check_window_congr (key suffix : String) (limit window now : Int)
    (st1 st2 : Store) (rands : List Nat)
    (h : st1.zset (zkey key suffix) = st2.zset (zkey key suffix)) :
    (check_window key suffix limit window now st1 rands).passed =
      (check_window key suffix limit window now st2 rands).passed ∧
    (check_window key suffix limit window now st1 rands).count =
      (check_window key suffix limit window now st2 rands).count ∧
    (check_window key suffix limit window now st1 rands).rands =
      (check_window key suffix limit window now st2 rands).rands ∧
    ∀ zk', st1.zset zk' = st2.zset zk' →
      (check_window key suffix limit window now st1 rands).store.zset zk' =
        (check_window key suffix limit window now st2 rands).store.zset zk' := by
  simp only [check_window, h]
  split_ifs <;> refine ⟨rfl, rfl, rfl, fun zk' hz => ?_⟩ <;>
    first
      | exact hz
      | (simp only [updateFn]; split_ifs <;> simp [hz])

lemma checkWindows_congr (key : String) (now : Int) :
    ∀ (ws : List (String × Int × Int)) (st1 st2 : Store) (rands : List Nat),
      (∀ t ∈ ws, st1.zset (zkey key t.1) = st2.zset (zkey key t.1)) →
    (checkWindows key now ws st1 rands).1 = (checkWindows key now ws st2 rands).1
  | [], _, _, _, _ => rfl
  | (s, limit, w) :: rest, st1, st2, rands, h => by
    obtain ⟨hp, hc, hr, hst⟩ :=
      check_window_congr key s limit w now st1 st2 rands (h (s, limit, w) (by simp))
    by_cases hpass : (check_window key s limit w now st1 rands).passed
    · simp only [checkWindows, hpass, hp ▸ hpass, if_true]
      rw [← hr]
      exact checkWindows_congr key now rest _ _ _
        (fun t ht => hst _ (h t (List.mem_cons_of_mem _ ht)))
    · have h1 : (check_window key s limit w now st1 rands).passed = false := by
        simpa using hpass
      have h2 : (check_window key s limit w now st2 rands).passed = false := by
        rw [← hp]; exact h1
      simp [checkWindows, h1, h2, hc]

lemma allow_fst_congr (key : String) (config : Option Config) (now : Int)
    (st1 st2 : Store) (rands : List Nat)
    (h : ∀ s ∈ windowNames, st1.zset (zkey key s) = st2.zset (zkey key s)) :
    (Allow key config now st1 rands).1 = (Allow key config now st2 rands).1 := by
  cases config with
  | none => rfl
  | some cfg =>
    simp only [Allow, runScript]
    rw [checkWindows_congr key now (windowList cfg) st1 st2 rands ?agree]
    case agree =>
      intro t ht
      apply h
      fin_cases ht <;> simp [windowNames]

/-! ## C9 -/

/-- C9: noninterference across keys.  For distinct keys `k1 ≠ k2`, applying
any sequence of `Allow` calls on `k1` (with arbitrary configs, clock values
and random draws — including sequences that exhaust all of `k1`'s limits)
leaves the outcome of every `Allow` call on `k2` unchanged: per-key storage
is disjoint and each admission decision depends only on that key's own
history. -/
theorem c9_key_noninterference (k1 k2 : String) (hk : k1 ≠ k2)
    (cs : List CallSpec) (st : Store) (config : Option Config) (now : Int)
    (rands : List Nat) :
    (Allow k2 config now (applyCalls k1 cs st) rands).1 =
      (Allow k2 config now st rands).1 := by
  apply allow_fst_congr
  intro s hs
  apply applyCalls_zset_frame
  intro s' hs' heq
  exact hk ((zkey_inj hs hs' heq).1.symm)

/-- Witness for C9: exhausting `"a"`'s `per_second` limit does not change the
outcome for `"b"`. -/
theorem c9_key_noninterference_witness :
    (Allow "b" (some ⟨1, 0, 0, 0⟩) 1000
        (applyCalls "a" [⟨some ⟨1, 0, 0, 0⟩, 1000, [1]⟩, ⟨some ⟨1, 0, 0, 0⟩, 1000, [2]⟩]
          emptyStore) [3]).1 =
      (Allow "b" (some ⟨1, 0, 0, 0⟩) 1000 emptyStore [3]).1 :=
  c9_key_noninterference "a" "b" (by decide)
    [⟨some ⟨1, 0, 0, 0⟩, 1000, [1]⟩, ⟨some ⟨1, 0, 0, 0⟩, 1000, [2]⟩]
    emptyStore (some ⟨1, 0, 0, 0⟩) 1000 [3]

/-! ## Dynamics of a single configured window -/




lemma memberAt_inSecond (T : Int) (r : Nat) : InSecond T (memberAt T r) := by
  unfold InSecond memberAt
  omega

lemma windowSpecs_secs_pos : ∀ t ∈ windowSpecs, (1 : Int) ≤ t.2 := by decide

lemma purgeList_eq_self_of_inSecond {l : List Int} {T w : Int} (hw : 1 ≤ w)
    (h : ∀ m ∈ l, InSecond T m) : purgeList l ((T - w) * 1000000) = l := by
  rw [purgeList, List.filter_eq_self]
  intro m hm
  have h1 := (h m hm).1
  have hlt : ¬ m ≤ (T - w) * 1000000 := by
    simp only [InSecond] at h1
    omega
  simp [expired, hlt]

lemma purgeList_eq_nil_of_le {l : List Int} {c : Int}
    (h : ∀ m ∈ l, 0 ≤ m ∧ m ≤ c) : purgeList l c = [] := by
  rw [purgeList, List.filter_eq_nil_iff]
  intro m hm
  simp [expired, (h m hm).1, (h m hm).2]

lemma check_window_accept_eq (key suffix : String) (limit window now : Int)
    (st : Store) (rands : List Nat)
    (hcnt : windowCount st key suffix window now < limit) :
    check_window key suffix limit window now st rands =
      ⟨true, windowCount st key suffix window now + 1,
       ⟨updateFn st.zset (zkey key suffix)
          (zadd (purgeList (st.zset (zkey key suffix)) ((now - window) * 1000000))
            (now * 1000000 + ((rands.headD 0 % 1000000 : Nat) : Int))),
        updateFn st.ttl (zkey key suffix) (some (window + 1))⟩,
       rands.tail⟩ := by
  have h0 : (0 : Int) ≤ windowCount st key suffix window now := by
    simp [windowCount]
  have h1 : ¬ limit ≤ 0 := by omega
  have h2 : ¬ limit ≤ windowCount st key suffix window now := not_le.mpr hcnt
  simp only [windowCount] at h2
  simp [check_window, h1, h2, windowCount]


lemma checkWindows_cons_nonpos (key : String) (now : Int) (s : String)
    (limit w : Int) (rest : List (String × Int × Int)) (st : Store)
    (rands : List Nat) (h : limit ≤ 0) :
    checkWindows key now ((s, limit, w) :: rest) st rands =
      checkWindows key now rest st rands := by
  simp [checkWindows, check_window_nonpos _ _ _ _ _ _ h]

lemma checkWindows_cons_pass (key : String) (now : Int) (s : String)
    (limit w : Int) (rest : List (String × Int × Int)) (st : Store)
    (rands : List Nat) (h : (check_window key s limit w now st rands).passed = true) :
    checkWindows key now ((s, limit, w) :: rest) st rands =
      checkWindows key now rest (check_window key s limit w now st rands).store
        (check_window key s limit w now st rands).rands := by
  simp [checkWindows, h]

lemma checkWindows_cons_fail (key : String) (now : Int) (s : String)
    (limit w : Int) (rest : List (String × Int × Int)) (st : Store)
    (rands : List Nat) (h : (check_window key s limit w now st rands).passed = false) :
    checkWindows key now ((s, limit, w) :: rest) st rands =
      (rejectRet s w (check_window key s limit w now st rands).count limit,
       (check_window key s limit w now st rands).store,
       (check_window key s limit w now st rands).rands) := by
  simp [checkWindows, h]

lemma parse_successRet (key : String) :
    parseScriptResult key (.arr successRet) = .ok := rfl

lemma parse_rejectRet (key s : String) (w c L : Int) :
    parseScriptResult key (.arr (rejectRet s w c L)) =
      .rateLimited ⟨key, s, w, c, L⟩ := by
  simp [parseScriptResult, rejectRet]

lemma allow_singleCfg (key name : String) (w : Int)
    (hmem : (name, w) ∈ windowSpecs) (L now : Int) (st : Store)
    (rands : List Nat) :
    Allow key (some (singleCfg name L)) now st rands =
      singleRun key name L w now st rands := by
  fin_cases hmem
  · -- per_second
    simp only [Allow, runScript,
      show singleCfg "per_second" L = ⟨L, 0, 0, 0⟩ from rfl, windowList]
    by_cases hp : (check_window key "per_second" L 1 now st rands).passed
    · rw [checkWindows_cons_pass _ _ _ _ _ _ _ _ hp,
        checkWindows_cons_nonpos _ _ _ _ _ _ _ _ le_rfl,
        checkWindows_cons_nonpos _ _ _ _ _ _ _ _ le_rfl,
        checkWindows_cons_nonpos _ _ _ _ _ _ _ _ le_rfl]
      simp [singleRun, hp, parse_successRet, checkWindows]
    · rw [checkWindows_cons_fail _ _ _ _ _ _ _ _ (by simpa using hp)]
      simp [singleRun, hp, parse_rejectRet]
  · -- per_minute
    simp only [Allow, runScript,
      show singleCfg "per_minute" L = ⟨0, L, 0, 0⟩ from rfl, windowList]
    rw [checkWindows_cons_nonpos _ _ _ _ _ _ _ _ le_rfl]
    by_cases hp : (check_window key "per_minute" L 60 now st rands).passed
    · rw [checkWindows_cons_pass _ _ _ _ _ _ _ _ hp,
        checkWindows_cons_nonpos _ _ _ _ _ _ _ _ le_rfl,
        checkWindows_cons_nonpos _ _ _ _ _ _ _ _ le_rfl]
      simp [singleRun, hp, parse_successRet, checkWindows]
    · rw [checkWindows_cons_fail _ _ _ _ _ _ _ _ (by simpa using hp)]
      simp [singleRun, hp, parse_rejectRet]
  · -- per_hour
    simp only [Allow, runScript,
      show singleCfg "per_hour" L = ⟨0, 0, L, 0⟩ from rfl, windowList]
    rw [checkWindows_cons_nonpos _ _ _ _ _ _ _ _ le_rfl,
      checkWindows_cons_nonpos _ _ _ _ _ _ _ _ le_rfl]
    by_cases hp : (check_window key "per_hour" L 3600 now st rands).passed
    · rw [checkWindows_cons_pass _ _ _ _ _ _ _ _ hp,
        checkWindows_cons_nonpos _ _ _ _ _ _ _ _ le_rfl]
      simp [singleRun, hp, parse_successRet, checkWindows]
    · rw [checkWindows_cons_fail _ _ _ _ _ _ _ _ (by simpa using hp)]
      simp [singleRun, hp, parse_rejectRet]
  · -- per_day
    simp only [Allow, runScript,
      show singleCfg "per_day" L = ⟨0, 0, 0, L⟩ from rfl, windowList]
    rw [checkWindows_cons_nonpos _ _ _ _ _ _ _ _ le_rfl,
      checkWindows_cons_nonpos _ _ _ _ _ _ _ _ le_rfl,
      checkWindows_cons_nonpos _ _ _ _ _ _ _ _ le_rfl]
    by_cases hp : (check_window key "per_day" L 86400 now st rands).passed
    · rw [checkWindows_cons_pass _ _ _ _ _ _ _ _ hp]
      simp [singleRun, hp, parse_successRet, checkWindows]
    · rw [checkWindows_cons_fail _ _ _ _ _ _ _ _ (by simpa using hp)]
      simp [singleRun, hp, parse_rejectRet]

lemma singleRun_accept (key name : String) (L w now : Int) (st : Store)
    (rands : List Nat) (hcnt : windowCount st key name w now < L) :
    singleRun key name L w now st rands =
      (.ok,
       ⟨updateFn st.zset (zkey key name)
          (zadd (purgeList (st.zset (zkey key name)) ((now - w) * 1000000))
            (now * 1000000 + ((rands.headD 0 % 1000000 : Nat) : Int))),
        updateFn st.ttl (zkey key name) (some (w + 1))⟩,
       rands.tail) := by
  rw [singleRun, check_window_accept_eq key name L w now st rands hcnt]
  rfl

lemma singleRun_reject (key name : String) (L w now : Int) (st : Store)
    (rands : List Nat) (hpos : 0 < L)
    (hcnt : L ≤ windowCount st key name w now) :
    singleRun key name L w now st rands =
      (.rateLimited ⟨key, name, w, windowCount st key name w now, L⟩,
       ⟨updateFn st.zset (zkey key name)
          (purgeList (st.zset (zkey key name)) ((now - w) * 1000000)),
        st.ttl⟩,
       rands) := by
  rw [singleRun, check_window_reject_eq key name L w now st rands hpos hcnt]
  rfl

lemma mem_zadd {l : List Int} {x m : Int} (h : m ∈ zadd l x) : m ∈ l ∨ m = x := by
  unfold zadd at h
  split_ifs at h with hx
  · exact Or.inl h
  · rcases List.mem_append.mp h with h' | h'
    · exact Or.inl h'
    · exact Or.inr (by simpa using h')

lemma countP_replicate (p : α → Bool) (a : α) (n : Nat) :
    (List.replicate n a).countP p = if p a then n else 0 := by
  induction n with
  | zero => simp
  | succ n ih =>
    simp only [List.replicate_succ, List.countP_cons, ih]
    split <;> simp

lemma allowSeq_add (key : String) (config : Option Config) (now : Int) :
    ∀ (a b : Nat) (st : Store) (rands : List Nat),
      allowSeq key config now (a + b) st rands =
        ((allowSeq key config now a st rands).1 ++
           (allowSeq key config now b (allowSeq key config now a st rands).2.1
             (allowSeq key config now a st rands).2.2).1,
         (allowSeq key config now b (allowSeq key config now a st rands).2.1
           (allowSeq key config now a st rands).2.2).2)
  | 0, b, st, rands => by simp [allowSeq]
  | a + 1, b, st, rands => by
    have ih := allowSeq_add key config now a b
      (Allow key config now st rands).2.1 (Allow key config now st rands).2.2
    have hs : a + 1 + b = (a + b) + 1 := by omega
    rw [hs]
    simp [allowSeq, ih]

lemma allowSeq_single_accepts (key name : String) (w : Int)
    (hmem : (name, w) ∈ windowSpecs) (L T : Int) (n : Nat) :
    ∀ (st : Store) (rands : List Nat) (l : List Int),
      st.zset (zkey key name) = l →
      (∀ m ∈ l, InSecond T m) →
      ((l.length : Int) + n ≤ L) →
      n ≤ rands.length →
      (l ++ membersOf T (rands.take n)).Nodup →
      ∃ st' : Store,
        allowSeq key (some (singleCfg name L)) T n st rands =
          (List.replicate n .ok, st', rands.drop n) ∧
        st'.zset (zkey key name) = l ++ membersOf T (rands.take n) := by
  induction n with
  | zero =>
    intro st rands l hz hIn hlen hrl hnd
    exact ⟨st, by simp [allowSeq], by simp [hz, membersOf]⟩
  | succ n ih =>
    intro st rands l hz hIn hlen hrl hnd
    obtain ⟨r, rs, rfl⟩ : ∃ r rs, rands = r :: rs := by
      cases rands with
      | nil => simp at hrl
      | cons a as => exact ⟨a, as, rfl⟩
    have hw : (1 : Int) ≤ w := windowSpecs_secs_pos (name, w) hmem
    have hpurge : purgeList l ((T - w) * 1000000) = l :=
      purgeList_eq_self_of_inSecond hw hIn
    have hwc : windowCount st key name w T = l.length := by
      rw [windowCount, hz, hpurge]
    have hcnt : windowCount st key name w T < L := by
      rw [hwc]
      push_cast at hlen ⊢
      omega
    have hmembers : membersOf T ((r :: rs).take (n + 1)) =
        memberAt T r :: membersOf T (rs.take n) := by
      simp [membersOf]
    have hnotmem : memberAt T r ∉ l := by
      rw [hmembers] at hnd
      intro hmem'
      exact (List.nodup_append.mp hnd).2.2 hmem' (List.mem_cons_self _ _)
    have hone : Allow key (some (singleCfg name L)) T st (r :: rs) =
        (.ok,
         ⟨updateFn st.zset (zkey key name) (zadd l (memberAt T r)),
          updateFn st.ttl (zkey key name) (some (w + 1))⟩,
         rs) := by
      rw [allow_singleCfg key name w hmem,
        singleRun_accept key name L w T st (r :: rs) hcnt, hz, hpurge]
      rfl
    have hz1 : (⟨updateFn st.zset (zkey key name) (zadd l (memberAt T r)),
        updateFn st.ttl (zkey key name) (some (w + 1))⟩ : Store).zset
          (zkey key name) = l ++ [memberAt T r] := by
      show updateFn st.zset (zkey key name) (zadd l (memberAt T r)) (zkey key name) = _
      rw [updateFn_same, zadd, if_neg hnotmem]
    have hIn1 : ∀ m ∈ l ++ [memberAt T r], InSecond T m := by
      intro m hm
      rcases List.mem_append.mp hm with h' | h'
      · exact hIn m h'
      · rw [List.mem_singleton.mp h']
        exact memberAt_inSecond T r
    have hlen1 : (((l ++ [memberAt T r]).length : Int) + n ≤ L) := by
      rw [List.length_append, List.length_singleton]
      push_cast at hlen ⊢
      omega
    have hrl1 : n ≤ rs.length := by
      simp only [List.length_cons] at hrl
      omega
    have hnd1 : ((l ++ [memberAt T r]) ++ membersOf T (rs.take n)).Nodup := by
      rw [List.append_assoc, List.singleton_append, ← hmembers]
      exact hnd
    obtain ⟨st', hseq, hzset⟩ := ih _ rs (l ++ [memberAt T r]) hz1 hIn1 hlen1 hrl1 hnd1
    refine ⟨st', ?_, ?_⟩
    · simp only [allowSeq, hone, hseq]
      simp [List.replicate_succ]
    · rw [hzset, List.append_assoc, List.singleton_append, ← hmembers]

lemma allowSeq_single_rejects (key name : String) (w : Int)
    (hmem : (name, w) ∈ windowSpecs) (L T : Int) (hpos : 0 < L) (n : Nat) :
    ∀ (st : Store) (rands : List Nat) (l : List Int),
      st.zset (zkey key name) = l →
      (∀ m ∈ l, InSecond T m) →
      (L ≤ (l.length : Int)) →
      ∃ st' : Store,
        allowSeq key (some (singleCfg name L)) T n st rands =
          (List.replicate n (.rateLimited ⟨key, name, w, (l.length : Int), L⟩),
           st', rands) ∧
        st'.zset (zkey key name) = l := by
  induction n with
  | zero =>
    intro st rands l hz hIn hlen
    exact ⟨st, by simp [allowSeq], hz⟩
  | succ n ih =>
    intro st rands l hz hIn hlen
    have hw : (1 : Int) ≤ w := windowSpecs_secs_pos (name, w) hmem
    have hpurge : purgeList l ((T - w) * 1000000) = l :=
      purgeList_eq_self_of_inSecond hw hIn
    have hwc : windowCount st key name w T = l.length := by
      rw [windowCount, hz, hpurge]
    have hone : Allow key (some (singleCfg name L)) T st rands =
        (.rateLimited ⟨key, name, w, (l.length : Int), L⟩,
         ⟨updateFn st.zset (zkey key name) l, st.ttl⟩,
         rands) := by
      rw [allow_singleCfg key name w hmem,
        singleRun_reject key name L w T st rands hpos (hwc ▸ hlen), hwc, hz, hpurge]
    have hz1 : (⟨updateFn st.zset (zkey key name) l, st.ttl⟩ : Store).zset
        (zkey key name) = l := by
      show updateFn st.zset (zkey key name) l (zkey key name) = l
      rw [updateFn_same]
    obtain ⟨st', hseq, hzset⟩ := ih _ rands l hz1 hIn hlen
    refine ⟨st', ?_, hzset⟩
    simp only [allowSeq, hone, hseq]
    simp [List.replicate_succ]

/-- Single-window calls at clock value `T` keep every stored `per-window`
member inside `[T·10⁶, (T+1)·10⁶)`. -/
lemma check_window_store_inSecond (key suffix : String) (limit window T : Int)
    (st : Store) (rands : List Nat)
    (h : ∀ m ∈ st.zset (zkey key suffix), InSecond T m) :
    ∀ m ∈ (check_window key suffix limit window T st rands).store.zset
        (zkey key suffix), InSecond T m := by
  simp only [check_window]
  split_ifs with h1 h2
  · exact h
  · intro m hm
    simp only [updateFn_same] at hm
    exact h m (List.mem_filter.mp hm).1
  · intro m hm
    simp only [updateFn_same] at hm
    rcases mem_zadd hm with h' | h'
    · exact h m (List.mem_filter.mp h').1
    · rw [h']
      exact memberAt_inSecond T (rands.headD 0)

lemma allowSeq_single_inSecond (key name : String) (w : Int)
    (hmem : (name, w) ∈ windowSpecs) (L T : Int) (n : Nat) :
    ∀ (st : Store) (rands : List Nat),
      (∀ m ∈ st.zset (zkey key name), InSecond T m) →
      ∀ m ∈ (allowSeq key (some (singleCfg name L)) T n st rands).2.1.zset
          (zkey key name), InSecond T m := by
  induction n with
  | zero =>
    intro st rands h
    simpa [allowSeq] using h
  | succ n ih =>
    intro st rands h
    have hstep : ∀ m ∈ (Allow key (some (singleCfg name L)) T st rands).2.1.zset
        (zkey key name), InSecond T m := by
      rw [allow_singleCfg key name w hmem]
      unfold singleRun
      by_cases hp : (check_window key name L w T st rands).passed <;>
        simp only [hp, if_true, if_false] <;>
        exact check_window_store_inSecond key name L w T st rands h
    simp only [allowSeq]
    exact ih _ _ hstep

/-! ## C4 -/

/-- C4 (refuting the unconditional claim): with `PerSecond = 2`, if the two
accepted calls at T = 1000 both draw random disambiguator 7, the second
marker coincides with the first (cf. C7), the stored count stays at 1, and
the third call — which the claim requires to be rejected — is accepted
too. -/
theorem c4_counterexample :
    (allowSeq "k" (some ⟨2, 0, 0, 0⟩) 1000 3 emptyStore [7, 7, 8]).1 =
      [.ok, .ok, .ok] := rfl

/-- C4 (amended): for every key and a config with a single window limit
`N > 0` (any of the four windows, all others zero), PROVIDED the script's
random disambiguators drawn within the second are pairwise distinct (the
spec's marker-uniqueness assumption; see the counterexample and C7 for a
collision), the first `N` calls at one instant return `nil` and the
`(N+1)`-th returns a rejection naming that window, carrying its duration,
`Current = N` and `Limit = N`.  Instantiated at `Config{PerSecond: 3}`:
calls 1–3 succeed and call 4 fails with `WindowName = "per_second"`,
`Current = 3`, `Limit = 3`. -/
theorem c4_single_window_threshold (key name : String) (w : Int)
    (hmem : (name, w) ∈ windowSpecs) (N : Nat) (hN : 0 < N) (T : Int)
    (rands : List Nat) (hlen : N ≤ rands.length)
    (hnodup : (membersOf T (rands.take N)).Nodup) :
    (allowSeq key (some (singleCfg name (N : Int))) T (N + 1) emptyStore rands).1 =
      List.replicate N .ok ++
        [.rateLimited ⟨key, name, w, (N : Int), (N : Int)⟩] := by
  obtain ⟨st', hseq, hzset⟩ :=
    allowSeq_single_accepts key name w hmem (N : Int) T N emptyStore rands []
      rfl (by simp) (by simp) hlen (by simpa using hnodup)
  have hlenz : st'.zset (zkey key name) = membersOf T (rands.take N) := by
    simpa using hzset
  have hlength : ((st'.zset (zkey key name)).length : Int) = (N : Int) := by
    rw [hlenz, membersOf, List.length_map, List.length_take]
    simp [Nat.min_eq_left hlen]
  have hIn : ∀ m ∈ st'.zset (zkey key name), InSecond T m := by
    rw [hlenz]
    intro m hm
    obtain ⟨r, _, rfl⟩ := List.mem_map.mp hm
    exact memberAt_inSecond T r
  obtain ⟨st'', hseq2, _⟩ :=
    allowSeq_single_rejects key name w hmem (N : Int) T
      (by exact_mod_cast hN) 1 st' (rands.drop N) (st'.zset (zkey key name))
      rfl hIn (le_of_eq hlength.symm)
  rw [allowSeq_add key (some (singleCfg name (N : Int))) T N 1 emptyStore rands,
    hseq]
  simp only [hseq2, hlength]
  simp

/-- Witness for C4 at the round-trip scenario of the spec. -/
theorem c4_single_window_threshold_witness :
    (allowSeq "u1" (some (singleCfg "per_second" 3)) 1000 4 emptyStore
        [0, 1, 2, 5]).1 =
      List.replicate 3 .ok ++
        [.rateLimited ⟨"u1", "per_second", 1, 3, 3⟩] :=
  c4_single_window_threshold "u1" "per_second" 1 (by decide) 3 (by decide)
    1000 [0, 1, 2, 5] (by decide) (by decide)

/-! ## C2 -/

lemma allowSeq_limit_one_results (key : String) (T : Int) (n : Nat)
    (rands : List Nat) :
    (allowSeq key (some ⟨1, 0, 0, 0⟩) T (n + 1) emptyStore rands).1 =
      .ok :: List.replicate n (.rateLimited ⟨key, "per_second", 1, 1, 1⟩) := by
  have hmem : (("per_second" : String), (1 : Int)) ∈ windowSpecs := by decide
  have hcfg : (⟨1, 0, 0, 0⟩ : Config) = singleCfg "per_second" 1 := rfl
  rw [hcfg, show n + 1 = 1 + n from by omega,
    allowSeq_add key (some (singleCfg "per_second" 1)) T 1 n emptyStore rands]
  have hcnt : windowCount emptyStore key "per_second" 1 T < 1 := by
    simp [windowCount, emptyStore, purgeList]
  have h1 : allowSeq key (some (singleCfg "per_second" 1)) T 1 emptyStore rands =
      ([.ok],
       ⟨updateFn emptyStore.zset (zkey key "per_second")
          [memberAt T (rands.headD 0)],
        updateFn emptyStore.ttl (zkey key "per_second") (some 2)⟩,
       rands.tail) := by
    simp only [allowSeq, allow_singleCfg key "per_second" 1 hmem,
      singleRun_accept key "per_second" 1 1 T emptyStore rands hcnt]
    rfl
  rw [h1]
  have hz1 : (⟨updateFn emptyStore.zset (zkey key "per_second")
      [memberAt T (rands.headD 0)],
      updateFn emptyStore.ttl (zkey key "per_second") (some 2)⟩ : Store).zset
        (zkey key "per_second") = [memberAt T (rands.headD 0)] := by
    show updateFn emptyStore.zset (zkey key "per_second")
      [memberAt T (rands.headD 0)] (zkey key "per_second") = _
    rw [updateFn_same]
  obtain ⟨st', hseq, _⟩ :=
    allowSeq_single_rejects key "per_second" 1 hmem 1 T one_pos n _ rands.tail
      [memberAt T (rands.headD 0)] hz1
      (by
        intro m hm
        rw [List.mem_singleton.mp hm]
        exact memberAt_inSecond T (rands.headD 0))
      (by simp)
  rw [hseq]
  simp

/-- C2: every concurrent schedule of `Allow` calls is a serialization of
whole atomic script executions (each `EVAL` is indivisible on the Redis
side); with a single-window limit of 1 and 50 callers on one fresh key at one
instant, every serialization accepts exactly 1 call and rejects exactly 49,
and no serialization of any number of callers admits more calls than the
configured limit of 1. -/
theorem c2_concurrent_single_admission (key : String) (T : Int)
    (rands : List Nat) :
    (okCount (allowSeq key (some ⟨1, 0, 0, 0⟩) T 50 emptyStore rands).1 = 1 ∧
     rejCount (allowSeq key (some ⟨1, 0, 0, 0⟩) T 50 emptyStore rands).1 = 49) ∧
    ∀ (n : Nat) (rands2 : List Nat),
      okCount (allowSeq key (some ⟨1, 0, 0, 0⟩) T n emptyStore rands2).1 ≤ 1 := by
  refine ⟨?_, ?_⟩
  · rw [show (50 : Nat) = 49 + 1 from rfl, allowSeq_limit_one_results]
    simp [okCount, rejCount, List.countP_cons, countP_replicate, isAllowed,
      isRejected]
  · intro n rands2
    cases n with
    | zero => simp [allowSeq, okCount]
    | succ n =>
      rw [allowSeq_limit_one_results]
      simp [okCount, List.countP_cons, countP_replicate, isAllowed]

/-! ## C3 (amended): recovery strictly after the window has slid past -/

/-- C3 (amended): with `per_second = N > 0` (all other windows zero) and the
injected clock, after ANY sequence of calls at time `T ≥ 0` starting from
empty state (in particular after `N` accepted calls and a rejection at `T`),
a call at any time `now2 ≥ T + 2` — strictly more than the 1-second window
after `T` — is accepted: every marker recorded at `T` is by then at or below
the purge cutoff `(now2 − 1)·10⁶` and is purged before counting.  (At exactly
`T + 1` recovery is NOT guaranteed: a marker `T·10⁶ + r` with random
disambiguator `r ≥ 1` sits strictly above the cutoff `T·10⁶`; see the
counterexample.) -/
theorem c3_window_recovery (key : String) (N : Nat) (hN : 0 < N)
    (T now2 : Int) (hT : 0 ≤ T) (hrec : T + 2 ≤ now2)
    (n : Nat) (rands rands2 : List Nat) :
    (Allow key (some ⟨(N : Int), 0, 0, 0⟩) now2
        (allowSeq key (some ⟨(N : Int), 0, 0, 0⟩) T n emptyStore rands).2.1
        rands2).1 = .ok := by
  have hmem : (("per_second" : String), (1 : Int)) ∈ windowSpecs := by decide
  have hcfg : (⟨(N : Int), 0, 0, 0⟩ : Config) = singleCfg "per_second" (N : Int) :=
    rfl
  rw [hcfg]
  have hIn : ∀ m ∈ (allowSeq key (some (singleCfg "per_second" (N : Int))) T n
      emptyStore rands).2.1.zset (zkey key "per_second"), InSecond T m :=
    allowSeq_single_inSecond key "per_second" 1 hmem (N : Int) T n emptyStore
      rands (by simp [emptyStore])
  have hpnil : purgeList ((allowSeq key (some (singleCfg "per_second" (N : Int)))
      T n emptyStore rands).2.1.zset (zkey key "per_second"))
        ((now2 - 1) * 1000000) = [] :=
    purgeList_eq_nil_of_le (fun m hm => by
      have h' := hIn m hm
      simp only [InSecond] at h'
      constructor <;> omega)
  have hwc : windowCount (allowSeq key (some (singleCfg "per_second" (N : Int)))
      T n emptyStore rands).2.1 key "per_second" 1 now2 = 0 := by
    rw [windowCount, hpnil]
    rfl
  rw [allow_singleCfg key "per_second" 1 hmem,
    singleRun_accept _ _ _ _ _ _ _ (by rw [hwc]; exact_mod_cast hN)]

/-- Witness for C3 (amended): after the exact scenario of the sliding-window
test (limit 1, accepted call and rejection at T = 1000), the call at
1002 = T + 2 succeeds. -/
theorem c3_window_recovery_witness :
    (Allow "k" (some ⟨1, 0, 0, 0⟩) 1002
        (allowSeq "k" (some ⟨1, 0, 0, 0⟩) 1000 2 emptyStore [1]).2.1 []).1 =
      .ok :=
  c3_window_recovery "k" 1 (by decide) 1000 1002 (by decide) (by decide) 2 [1] []

/-! ## C1 (amended): what a rejected request does and does not record -/


lemma check_window_failed_store (key suffix : String) (limit window now : Int)
    (st : Store) (rands : List Nat)
    (h : (check_window key suffix limit window now st rands).passed = false) :
    (check_window key suffix limit window now st rands).store.zset =
      updateFn st.zset (zkey key suffix)
        (purgeList (st.zset (zkey key suffix)) ((now - window) * 1000000)) := by
  simp only [check_window] at h ⊢
  split_ifs at h ⊢
  rfl

lemma rejectRet_inj {s1 s2 : String} {w1 w2 c1 c2 l1 l2 : Int}
    (h : rejectRet s1 w1 c1 l1 = rejectRet s2 w2 c2 l2) : s1 = s2 := by
  simp only [rejectRet, List.cons.injEq, RVal.str.injEq] at h
  exact h.2.1

lemma successRet_ne_rejectRet (s : String) (w c l : Int) :
    successRet ≠ rejectRet s w c l := by
  simp [successRet, rejectRet]

lemma zkey_window_ne (key : String) {s1 s2 : String} (h1 : s1 ∈ windowNames)
    (h2 : s2 ∈ windowNames) (hne : s1 ≠ s2) : zkey key s1 ≠ zkey key s2 :=
  fun he => hne (zkey_inj h1 h2 he).2

/-- C1 (amended): if the script rejects the request at window `name`, then no
marker is recorded in `name` itself — its stored set after the call is a
sublist (the purge) of what was stored before — and the stored sets of all
windows evaluated AFTER `name` in the fixed order are exactly unchanged.
(Windows evaluated BEFORE `name` have already recorded a marker for the
rejected request and keep it — see the counterexample — so the claim's
"no marker in any window, state exactly as before" does not hold.) -/
theorem c1_rejection_no_marker_at_or_after_violated (key : String) (now : Int)
    (cfg : Config) (st : Store) (rands : List Nat) (name : String)
    (wsecs cur lim : Int)
    (h : (runScript key now cfg st rands).1 = rejectRet name wsecs cur lim) :
    ((runScript key now cfg st rands).2.1.zset (zkey key name)).Sublist
      (st.zset (zkey key name)) ∧
    ∀ s ∈ laterNames name,
      (runScript key now cfg st rands).2.1.zset (zkey key s) =
        st.zset (zkey key s) := by
  simp only [runScript, windowList] at h ⊢
  by_cases hp1 : (check_window key "per_second" cfg.PerSecond 1 now st rands).passed
  case neg =>
    have hf1 : (check_window key "per_second" cfg.PerSecond 1 now st rands).passed
        = false := by simpa using hp1
    rw [checkWindows_cons_fail _ _ _ _ _ _ _ _ hf1] at h ⊢
    have hname : "per_second" = name := rejectRet_inj h
    subst hname
    refine ⟨?_, ?_⟩
    · show ((check_window key "per_second" cfg.PerSecond 1 now st
          rands).store.zset (zkey key "per_second")).Sublist
        (st.zset (zkey key "per_second"))
      rw [check_window_failed_store _ _ _ _ _ _ _ hf1, updateFn_same]
      exact List.filter_sublist _
    · intro s hs
      have hs' : s ∈ (["per_minute", "per_hour", "per_day"] : List String) := hs
      show (check_window key "per_second" cfg.PerSecond 1 now st
          rands).store.zset (zkey key s) = st.zset (zkey key s)
      fin_cases hs' <;>
        exact check_window_zset_frame _ _ _ _ _ _ _
          (zkey_window_ne key (by decide) (by decide) (by decide))
  case pos =>
  rw [checkWindows_cons_pass _ _ _ _ _ _ _ _ hp1] at h ⊢
  by_cases hp2 : (check_window key "per_minute" cfg.PerMinute 60 now
      (check_window key "per_second" cfg.PerSecond 1 now st rands).store
      (check_window key "per_second" cfg.PerSecond 1 now st rands).rands).passed
  case neg =>
    have hf2 : (check_window key "per_minute" cfg.PerMinute 60 now
        (check_window key "per_second" cfg.PerSecond 1 now st rands).store
        (check_window key "per_second" cfg.PerSecond 1 now st rands).rands).passed
        = false := by simpa using hp2
    rw [checkWindows_cons_fail _ _ _ _ _ _ _ _ hf2] at h ⊢
    have hname : "per_minute" = name := rejectRet_inj h
    subst hname
    have hfr1 : ∀ s : String, s ≠ "per_second" → s ∈ windowNames →
        (check_window key "per_second" cfg.PerSecond 1 now st
          rands).store.zset (zkey key s) = st.zset (zkey key s) := by
      intro s hne hmem
      exact check_window_zset_frame _ _ _ _ _ _ _
        (zkey_window_ne key hmem (by decide) hne)
    refine ⟨?_, ?_⟩
    · show ((check_window key "per_minute" cfg.PerMinute 60 now _ _).store.zset
          (zkey key "per_minute")).Sublist (st.zset (zkey key "per_minute"))
      rw [check_window_failed_store _ _ _ _ _ _ _ hf2, updateFn_same,
        hfr1 "per_minute" (by decide) (by decide)]
      exact List.filter_sublist _
    · intro s hs
      have hs' : s ∈ (["per_hour", "per_day"] : List String) := hs
      show (check_window key "per_minute" cfg.PerMinute 60 now _ _).store.zset
          (zkey key s) = st.zset (zkey key s)
      fin_cases hs' <;>
        rw [check_window_zset_frame _ _ _ _ _ _ _
            (zkey_window_ne key (by decide) (by decide) (by decide)),
          hfr1 _ (by decide) (by decide)]
  case pos =>
  rw [checkWindows_cons_pass _ _ _ _ _ _ _ _ hp2] at h ⊢
  by_cases hp3 : (check_window key "per_hour" cfg.PerHour 3600 now
      (check_window key "per_minute" cfg.PerMinute 60 now
        (check_window key "per_second" cfg.PerSecond 1 now st rands).store
        (check_window key "per_second" cfg.PerSecond 1 now st rands).rands).store
      (check_window key "per_minute" cfg.PerMinute 60 now
        (check_window key "per_second" cfg.PerSecond 1 now st rands).store
        (check_window key "per_second" cfg.PerSecond 1 now st rands).rands).rands).passed
  case neg =>
    have hf3 : (check_window key "per_hour" cfg.PerHour 3600 now
        (check_window key "per_minute" cfg.PerMinute 60 now
          (check_window key "per_second" cfg.PerSecond 1 now st rands).store
          (check_window key "per_second" cfg.PerSecond 1 now st rands).rands).store
        (check_window key "per_minute" cfg.PerMinute 60 now
          (check_window key "per_second" cfg.PerSecond 1 now st rands).store
          (check_window key "per_second" cfg.PerSecond 1 now st rands).rands).rands).passed
        = false := by simpa using hp3
    rw [checkWindows_cons_fail _ _ _ _ _ _ _ _ hf3] at h ⊢
    have hname : "per_hour" = name := rejectRet_inj h
    subst hname
    have hfr12 : ∀ s : String, s ≠ "per_second" → s ≠ "per_minute" →
        s ∈ windowNames →
        (check_window key "per_minute" cfg.PerMinute 60 now
          (check_window key "per_second" cfg.PerSecond 1 now st rands).store
          (check_window key "per_second" cfg.PerSecond 1 now st
            rands).rands).store.zset (zkey key s) = st.zset (zkey key s) := by
      intro s hne1 hne2 hmem
      rw [check_window_zset_frame _ _ _ _ _ _ _
          (zkey_window_ne key hmem (by decide) hne2),
        check_window_zset_frame _ _ _ _ _ _ _
          (zkey_window_ne key hmem (by decide) hne1)]
    refine ⟨?_, ?_⟩
    · show ((check_window key "per_hour" cfg.PerHour 3600 now _ _).store.zset
          (zkey key "per_hour")).Sublist (st.zset (zkey key "per_hour"))
      rw [check_window_failed_store _ _ _ _ _ _ _ hf3, updateFn_same,
        hfr12 "per_hour" (by decide) (by decide) (by decide)]
      exact List.filter_sublist _
    · intro s hs
      have hs' : s ∈ (["per_day"] : List String) := hs
      show (check_window key "per_hour" cfg.PerHour 3600 now _ _).store.zset
          (zkey key s) = st.zset (zkey key s)
      fin_cases hs'
      rw [check_window_zset_frame _ _ _ _ _ _ _
          (zkey_window_ne key (by decide) (by decide) (by decide)),
        hfr12 _ (by decide) (by decide) (by decide)]
  case pos =>
  rw [checkWindows_cons_pass _ _ _ _ _ _ _ _ hp3] at h ⊢
  by_cases hp4 : (check_window key "per_day" cfg.PerDay 86400 now
      (check_window key "per_hour" cfg.PerHour 3600 now
        (check_window key "per_minute" cfg.PerMinute 60 now
          (check_window key "per_second" cfg.PerSecond 1 now st rands).store
          (check_window key "per_second" cfg.PerSecond 1 now st rands).rands).store
        (check_window key "per_minute" cfg.PerMinute 60 now
          (check_window key "per_second" cfg.PerSecond 1 now st rands).store
          (check_window key "per_second" cfg.PerSecond 1 now st rands).rands).rands).store
      (check_window key "per_hour" cfg.PerHour 3600 now
        (check_window key "per_minute" cfg.PerMinute 60 now
          (check_window key "per_second" cfg.PerSecond 1 now st rands).store
          (check_window key "per_second" cfg.PerSecond 1 now st rands).rands).store
        (check_window key "per_minute" cfg.PerMinute 60 now
          (check_window key "per_second" cfg.PerSecond 1 now st rands).store
          (check_window key "per_second" cfg.PerSecond 1 now st
            rands).rands).rands).rands).passed
  case neg =>
    have hf4 : (check_window key "per_day" cfg.PerDay 86400 now
        (check_window key "per_hour" cfg.PerHour 3600 now
          (check_window key "per_minute" cfg.PerMinute 60 now
            (check_window key "per_second" cfg.PerSecond 1 now st rands).store
            (check_window key "per_second" cfg.PerSecond 1 now st rands).rands).store
          (check_window key "per_minute" cfg.PerMinute 60 now
            (check_window key "per_second" cfg.PerSecond 1 now st rands).store
            (check_window key "per_second" cfg.PerSecond 1 now st rands).rands).rands).store
        (check_window key "per_hour" cfg.PerHour 3600 now
          (check_window key "per_minute" cfg.PerMinute 60 now
            (check_window key "per_second" cfg.PerSecond 1 now st rands).store
            (check_window key "per_second" cfg.PerSecond 1 now st rands).rands).store
          (check_window key "per_minute" cfg.PerMinute 60 now
            (check_window key "per_second" cfg.PerSecond 1 now st rands).store
            (check_window key "per_second" cfg.PerSecond 1 now st
              rands).rands).rands).rands).passed = false := by simpa using hp4
    rw [checkWindows_cons_fail _ _ _ _ _ _ _ _ hf4] at h ⊢
    have hname : "per_day" = name := rejectRet_inj h
    subst hname
    have hfr123 : ∀ s : String, s ≠ "per_second" → s ≠ "per_minute" →
        s ≠ "per_hour" → s ∈ windowNames →
        (check_window key "per_hour" cfg.PerHour 3600 now
          (check_window key "per_minute" cfg.PerMinute 60 now
            (check_window key "per_second" cfg.PerSecond 1 now st rands).store
            (check_window key "per_second" cfg.PerSecond 1 now st rands).rands).store
          (check_window key "per_minute" cfg.PerMinute 60 now
            (check_window key "per_second" cfg.PerSecond 1 now st rands).store
            (check_window key "per_second" cfg.PerSecond 1 now st
              rands).rands).rands).store.zset (zkey key s) =
          st.zset (zkey key s) := by
      intro s hne1 hne2 hne3 hmem
      rw [check_window_zset_frame _ _ _ _ _ _ _
          (zkey_window_ne key hmem (by decide) hne3),
        check_window_zset_frame _ _ _ _ _ _ _
          (zkey_window_ne key hmem (by decide) hne2),
        check_window_zset_frame _ _ _ _ _ _ _
          (zkey_window_ne key hmem (by decide) hne1)]
    refine ⟨?_, ?_⟩
    · show ((check_window key "per_day" cfg.PerDay 86400 now _ _).store.zset
          (zkey key "per_day")).Sublist (st.zset (zkey key "per_day"))
      rw [check_window_failed_store _ _ _ _ _ _ _ hf4, updateFn_same,
        hfr123 "per_day" (by decide) (by decide) (by decide) (by decide)]
      exact List.filter_sublist _
    · intro s hs
      have hs' : s ∈ ([] : List String) := hs
      exact absurd hs' (List.not_mem_nil s)
  case pos =>
  rw [checkWindows_cons_pass _ _ _ _ _ _ _ _ hp4] at h
  exact absurd h (successRet_ne_rejectRet _ _ _ _)


/-- Witness for C1 (amended) at a concrete rejecting run. -/
theorem c1_rejection_no_marker_witness :
    ((runScript "k" 1000 ⟨5, 1, 0, 0⟩ c1Store [2]).2.1.zset
        (zkey "k" "per_minute")).Sublist (c1Store.zset (zkey "k" "per_minute")) ∧
    ∀ s ∈ laterNames "per_minute",
      (runScript "k" 1000 ⟨5, 1, 0, 0⟩ c1Store [2]).2.1.zset (zkey "k" s) =
        c1Store.zset (zkey "k" s) :=
  c1_rejection_no_marker_at_or_after_violated "k" 1000 ⟨5, 1, 0, 0⟩ c1Store [2]
    "per_minute" 60 1 1 rfl

end Ratelimit
end GoPkg
